import Mathlib

/-!
Shallow embedding of the candidate-job matching core of the job-board
application (matching service, skill extractor, cover-letter and CV
processors, queue worker handlers), together with proofs of the spec's
testable properties.

Strings are modelled by Lean `String`; the JavaScript
`String.prototype.toLowerCase()` is modelled by ASCII lower-casing
(`lowerChar` / `toLowerCase`), which is exact on the repository's
skill vocabulary and template text.  JavaScript numbers that are only
ever non-negative rationals `100 * m / n` are modelled exactly by `ℚ`;
`Math.round` (round half toward `+∞`) is modelled by `⌊x + 1/2⌋`.
-/

namespace CollabBoard

/-- ASCII lower-casing of one character, the effect of
`String.prototype.toLowerCase()` on the ASCII range. -/
def lowerChar (c : Char) : Char :=
  if 65 ≤ c.toNat ∧ c.toNat ≤ 90 then Char.ofNat (c.toNat + 32) else c

/-- Model of the JavaScript `text.toLowerCase()`. -/
def toLowerCase (s : String) : String :=
  String.mk (s.data.map lowerChar)

/-- `hasSub p l` decides whether the character list `p` occurs as a
contiguous sublist of `l`; model of `text.includes(pat)`. -/
def hasSub (p : List Char) : List Char → Bool
  | [] => p.isPrefixOf []
  | c :: t => p.isPrefixOf (c :: t) || hasSub p t

/-- Model of the JavaScript `text.includes(pat)`. -/
def strIncludes (text pat : String) : Bool :=
  hasSub pat.data text.data

theorem toNat_ofNat_valid (n : Nat) (h : n.isValidChar) : (Char.ofNat n).toNat = n := by
  simp [Char.ofNat, h, Char.ofNatAux, Char.toNat]
  rfl

theorem toNat_ofNat_small (n : Nat) (h : n < 0xd800) : (Char.ofNat n).toNat = n :=
  toNat_ofNat_valid n (Or.inl h)

theorem lowerChar_idem (c : Char) : lowerChar (lowerChar c) = lowerChar c := by
  unfold lowerChar
  by_cases h : 65 ≤ c.toNat ∧ c.toNat ≤ 90
  · have hv : (Char.ofNat (c.toNat + 32)).toNat = c.toNat + 32 :=
      toNat_ofNat_small _ (by omega)
    rw [if_pos h, if_neg (by omega)]
  · rw [if_neg h, if_neg h]

theorem toLowerCase_idem (s : String) : toLowerCase (toLowerCase s) = toLowerCase s := by
  unfold toLowerCase
  simp only [List.map_map]
  congr 1
  exact List.map_congr_left (fun c _ => lowerChar_idem c)

/-- The fixed skill vocabulary of `extractSkillsFromText`
(`coverLetterProcessor.ts` / `cvProcessor.ts`, also duplicated in
`auth.routes.ts`). -/
def commonSkills : List String :=
  ["javascript", "typescript", "react", "node", "express", "mongodb", "sql",
   "python", "java", "c#", "c++", "php", "ruby", "go", "rust", "swift",
   "html", "css", "sass", "less", "tailwind", "bootstrap", "material-ui",
   "aws", "azure", "gcp", "docker", "kubernetes", "jenkins", "git", "github",
   "gitlab", "bitbucket", "jira", "agile", "scrum", "kanban", "devops",
   "ci/cd", "testing", "jest", "mocha", "cypress", "selenium", "qa",
   "product management", "project management", "ui/ux", "figma", "sketch",
   "adobe", "photoshop", "illustrator", "xd", "indesign", "marketing",
   "seo", "sem", "content", "social media", "analytics", "data science",
   "machine learning", "ai", "nlp", "computer vision", "data analysis",
   "statistics", "r", "tableau", "power bi", "excel", "word", "powerpoint",
   "communication", "leadership", "teamwork", "problem solving", "critical thinking"]

/-- Model of `extractSkillsFromText` (cvProcessor.ts lines 122-141):
`commonSkills.filter(skill => text.toLowerCase().includes(skill.toLowerCase()))`. -/
def extractSkillsFromText (text : String) : List String :=
  commonSkills.filter (fun skill => strIncludes (toLowerCase text) (toLowerCase skill))

/-! ## Match scorer (matching.service.ts) -/

/-- `seekerProfile.skills.map(skill => skill.name.toLowerCase())`. -/
def seekerSkillsOf (skills : List String) : List String :=
  skills.map toLowerCase

/-- `job.tags.map(tag => tag.name.toLowerCase())`. -/
def jobTagsOf (tags : List String) : List String :=
  tags.map toLowerCase

/-- `jobTags.filter(tag => seekerSkills.includes(tag))`. -/
def matchingTags (skills tags : List String) : List String :=
  (jobTagsOf tags).filter (fun t => decide (t ∈ seekerSkillsOf skills))

/-- Exact value of the unrounded Algorithm A score
`jobTags.length > 0 ? (matchingTags.length / jobTags.length) * 100 : 0`. -/
def matchScore (skills tags : List String) : ℚ :=
  if 0 < (jobTagsOf tags).length then
    (((matchingTags skills tags).length : ℚ) / ((jobTagsOf tags).length : ℚ)) * 100
  else 0

/-- `Math.round` on a non-negative rational: round half toward `+∞`. -/
def jsRound (x : ℚ) : ℤ :=
  ⌊x + 1 / 2⌋

/-- One entry of the list built inside `findMatchingJobs`:
the job (here just its insertion index), its unrounded score, and its
matching tags. -/
structure MatchedJob where
  idx : Nat
  score : ℚ
  tags : List String
  deriving DecidableEq, Repr

/-- Stable descending insertion of one entry: the new entry goes in
front of the first existing entry whose score is `≤` its own.  Entries
already in the list that tie with the new entry keep their position in
front of it only when they have strictly greater score, so an entry
inserted from further left in the input ends up before equal-score
entries from further right — the stability ECMA-262 guarantees for
`Array.prototype.sort`. -/
def insDesc (x : MatchedJob) : List MatchedJob → List MatchedJob
  | [] => [x]
  | y :: ys => if y.score ≤ x.score then x :: y :: ys else y :: insDesc x ys

/-- Stable sort by score descending, the model of
`matchedJobs.sort((a, b) => b.matchScore - a.matchScore)`. -/
def sortDesc : List MatchedJob → List MatchedJob
  | [] => []
  | x :: xs => insDesc x (sortDesc xs)

/-- The scored-but-unsorted list built by the `.map` inside
`findMatchingJobs`, with jobs given by their tag lists in
insertion/creation order. -/
def scoredJobs (skills : List String) (jobs : List (List String)) : List MatchedJob :=
  jobs.enum.map (fun p => ⟨p.1, matchScore skills p.2, matchingTags skills p.2⟩)

/-- Model of `findMatchingJobs`: score every job, then sort by score
descending. -/
def findMatchingJobs (skills : List String) (jobs : List (List String)) : List MatchedJob :=
  sortDesc (scoredJobs skills jobs)

/-- One entry of the list returned by `getJobRecommendations`:
`matchScore: Math.round(matchScore), matchingSkills: matchingTags`. -/
structure Recommendation where
  idx : Nat
  matchScore : ℤ
  matchingSkills : List String
  deriving DecidableEq, Repr

/-- Model of `getJobRecommendations`. -/
def getJobRecommendations (skills : List String) (jobs : List (List String)) :
    List Recommendation :=
  (findMatchingJobs skills jobs).map (fun m => ⟨m.idx, jsRound m.score, m.tags⟩)

/-- Model of `calculateJobMatch` (matching.service.ts lines 78-90),
Algorithm B: percentage of seeker skills appearing as substrings of the
job's requirements/description prose.  `requirements`/`description` are
nullable in the schema; `job.requirements || ''` is `Option.getD`. -/
def calculateJobMatch (skills : List String) (requirements description : Option String) : ℤ :=
  let seekerSkills := skills.map toLowerCase
  let text := toLowerCase (requirements.getD "" ++ " " ++ description.getD "")
  let total : ℕ := if seekerSkills.length = 0 then 1 else seekerSkills.length
  let matched := (seekerSkills.filter (fun s => strIncludes text s)).length
  jsRound (((matched : ℚ) / (total : ℚ)) * 100)

/-! ## CV parsing processor (cvProcessor.ts) -/

/-- Payload of a CV_PARSE task (`CvParsingJobData`). -/
structure CvParsingJobData where
  seekerProfileId : String
  cvUrl : String
  dbJobId : String
  deriving DecidableEq, Repr

/-- Return value of the CV_PARSE processor (`CvParsingResult`). -/
structure CvParsingResult where
  parsedText : String
  extractedSkills : List String
  deriving DecidableEq, Repr

/-- The hard-coded sample résumé the processor "parses" in place of the
uploaded CV (cvProcessor.ts lines 157-182). -/
def sampleCvText : String :=
  "\n    PROFESSIONAL SUMMARY\n    Experienced software developer with 5 years of experience in full-stack web development.\n    Proficient in JavaScript, TypeScript, React, Node.js, and Express.\n    \n    SKILLS\n    - Frontend: React, Redux, HTML5, CSS3, Tailwind CSS\n    - Backend: Node.js, Express, NestJS\n    - Databases: MongoDB, PostgreSQL\n    - DevOps: Docker, AWS, CI/CD pipelines\n    - Testing: Jest, React Testing Library\n    \n    EXPERIENCE\n    Senior Software Engineer | TechCorp Inc. | 2020-Present\n    - Developed and maintained multiple React applications\n    - Implemented RESTful APIs using Node.js and Express\n    - Worked with cross-functional teams to deliver features on time\n    \n    Software Developer | WebSolutions LLC | 2018-2020\n    - Built responsive web applications using React\n    - Created backend services with Node.js and MongoDB\n    - Participated in code reviews and mentored junior developers\n    \n    EDUCATION\n    Bachelor of Science in Computer Science | Tech University | 2018\n    "

/-- The skill-insertion loop of `processCvParsing` (lines 188-206): for
each extracted skill, `findFirst` an existing row with that name for the
seeker and `create` one only when none exists.  The database state for
one seeker is the list of that seeker's stored skill names. -/
def insertSkills (existing skills : List String) : List String :=
  skills.foldl (fun acc skill => if skill ∈ acc then acc else acc ++ [skill]) existing

/-- Model of `processCvParsing`: ignores `data.cvUrl`, extracts skills
from the hard-coded sample text, upserts them into the seeker's skill
rows, and returns the parsed text plus extracted skills.  First
component: the returned `CvParsingResult`; second: the seeker's skill
rows after the run. -/
def processCvParsing (data : CvParsingJobData) (skillRows : List String) :
    CvParsingResult × List String :=
  let extractedSkills := extractSkillsFromText sampleCvText
  (⟨sampleCvText, extractedSkills⟩, insertSkills skillRows extractedSkills)

/-! ## Task queue and worker pool (queue/index.ts) -/

inductive TaskStatus
  | PENDING
  | RUNNING
  | COMPLETED
  | FAILED
  deriving DecidableEq, Repr

/-- The `result` column of the `jobQueue` row: empty until the task
finishes, then the JSON-serialized processor output on success or
`JSON.stringify({ error: message })` on failure. -/
inductive TaskResult
  | empty
  | success (payload : String)
  | failure (message : String)
  deriving DecidableEq, Repr

structure Task where
  id : Nat
  status : TaskStatus
  result : TaskResult
  deriving DecidableEq, Repr

/-- How a processor invocation ends: returns a payload, or raises an
exception with a message. -/
inductive ProcOutcome
  | ok (payload : String)
  | err (message : String)
  deriving DecidableEq, Repr

/-- The worker's `completed` event handler: status COMPLETED, result the
serialized payload. -/
def completedHandler (t : Task) (payload : String) : Task :=
  { t with status := .COMPLETED, result := .success payload }

/-- The worker's `failed` event handler: status FAILED, result
`{ error: message }`. -/
def failedHandler (t : Task) (message : String) : Task :=
  { t with status := .FAILED, result := .failure message }

/-- Dispatch on how the processor ended. -/
def finishTask (t : Task) : ProcOutcome → Task
  | .ok p => completedHandler t p
  | .err m => failedHandler t m

/-- One delivery of a task to a worker: only a PENDING task is picked
up and moved through RUNNING to a terminal state; a task already
terminal (or running elsewhere) is left untouched. -/
def stepTask (t : Task) (o : ProcOutcome) : Task :=
  if t.status = .PENDING then finishTask { t with status := .RUNNING } o else t

structure QueueState where
  tasks : List Task
  nextId : Nat
  deriving DecidableEq, Repr

/-- `enqueue`: create a PENDING task and hand its id back to the
caller. -/
def enqueue (st : QueueState) : Nat × QueueState :=
  (st.nextId, ⟨st.tasks ++ [⟨st.nextId, .PENDING, .empty⟩], st.nextId + 1⟩)

/-- Deliver every task once, each with the outcome its processor
produces. -/
def processAll (st : QueueState) (outcomeOf : Nat → ProcOutcome) : QueueState :=
  ⟨st.tasks.map (fun t => stepTask t (outcomeOf t.id)), st.nextId⟩

/-- What the enqueue-time caller observes: the task id returned by
`enqueue`, with the asynchronous processing happening afterwards. -/
def enqueueThenProcess (st : QueueState) (outcomeOf : Nat → ProcOutcome) :
    Nat × QueueState :=
  (( enqueue st).1, processAll (enqueue st).2 outcomeOf)

/-- The outcome the CV-parsing worker hands to the queue:
`processCvParsing` contains no external-service call at all and returns
normally, so the worker reports success with the serialized result. -/
def cvParseOutcome (data : CvParsingJobData) (skillRows : List String) : ProcOutcome :=
  .ok (processCvParsing data skillRows).1.parsedText

/-! ## External CV-analysis call with heuristic fallback
(auth.routes.ts, `/seeker/cv/analyze`) -/

/-- How the `fetch` of `AI_API_URL/analyze-cv` can end. -/
inductive AiCallOutcome
  | netError
  | malformedJson
  | payload (parsedText : Option String) (extractedSkills : Option (List String))
      (skills : Option (List String))
  deriving DecidableEq, Repr

/-- `parsedText` / `extractedSkills` as they stand right after the
`try`/`catch` around the external call: empty when the service is not
configured, the fetch throws, or the body fails to parse
(`.catch(() => ({}))`); otherwise
`(data && data.parsedText) || ''` and
`Array.isArray(data?.extractedSkills) ? data.extractedSkills : (data?.skills || [])`. -/
def aiRaw : Bool → AiCallOutcome → String × List String
  | false, _ => ("", [])
  | true, .netError => ("", [])
  | true, .malformedJson => ("", [])
  | true, .payload pt es sk =>
      (pt.getD "", match es with | some l => l | none => sk.getD [])

/-- The fallback text substituted when the AI returned no parsed text. -/
def fallbackMessage : String :=
  "Parsed CV text not available from AI. Using heuristic extraction."

/-- The analyze handler's parsed-text/skills computation including the
fallback branch `if (!parsedText || extractedSkills.length === 0)`. -/
def analyzeCv (configured : Bool) (ai : AiCallOutcome) : String × List String :=
  let r := aiRaw configured ai
  if r.1 = "" ∨ r.2 = [] then
    let pt := if r.1 = "" then fallbackMessage else r.1
    (pt, extractSkillsFromText pt)
  else r

/-- A seeker profile row as the analyze route reads it. -/
structure SeekerRow where
  cvUrl : Option String
  deriving DecidableEq, Repr

/-- The analyze route end to end: 404 when the profile is missing, 400
when no CV was uploaded, otherwise the (total, never-throwing) analysis
with fallback. -/
def analyzeCvRoute (seeker : Option SeekerRow) (configured : Bool) (ai : AiCallOutcome) :
    Except String (String × List String) :=
  match seeker with
  | none => .error "Seeker profile not found"
  | some s =>
    match s.cvUrl with
    | none => .error "No CV uploaded"
    | some _ => .ok (analyzeCv configured ai)

/-! ## Cover letter composer (coverLetterProcessor.ts) -/

structure SeekerProfileRec where
  firstName : String
  lastName : String
  email : String
  skills : List String
  deriving DecidableEq, Repr

structure JobPostingRec where
  title : String
  description : String
  companyName : Option String
  deriving DecidableEq, Repr

/-- `jobPosting.employer.employerProfile?.companyName || 'Company'`. -/
def orCompany : Option String → String
  | none => "Company"
  | some s => if s = "" then "Company" else s

/-- The template interpolation of `processCoverLetterGeneration`
(lines 72-95). -/
def composeCoverLetter (seeker : SeekerProfileRec) (job : JobPostingRec) : String :=
  let companyName := orCompany job.companyName
  let seekerName := seeker.firstName ++ " " ++ seeker.lastName
  let jobTitle := job.title
  let skills := String.intercalate ", " seeker.skills
  "\n    " ++ seekerName ++ "\n    " ++ seeker.email ++
  "\n    \n    Dear Hiring Manager at " ++ companyName ++
  ",\n    \n    I am writing to express my interest in the " ++ jobTitle ++
  " position at " ++ companyName ++ ". With my background and skills in " ++ skills ++
  ", I believe I would be a valuable addition to your team.\n    \n    " ++
  "Throughout my career, I have developed strong expertise in web development technologies and have consistently delivered high-quality solutions. My experience aligns well with the requirements outlined in your job posting, and I am excited about the opportunity to contribute to your organization.\n    \n    " ++
  "In my previous roles, I have successfully implemented complex features, collaborated with cross-functional teams, and maintained a focus on delivering exceptional user experiences. I am particularly drawn to " ++ companyName ++
  "'s innovative approach to technology solutions and would welcome the chance to be part of your continued success.\n    \n    " ++
  "I am confident that my technical skills, combined with my problem-solving abilities and teamwork, make me a strong candidate for this position. I look forward to the opportunity to discuss how my background and experience can benefit " ++ companyName ++
  ".\n    \n    Thank you for considering my application.\n    \n    Sincerely,\n    " ++ seekerName ++ "\n    "

/-- `processCoverLetterGeneration` with the two existence checks that
throw `NotFound` before the template is filled in. -/
def processCoverLetterGeneration (seeker : Option SeekerProfileRec)
    (job : Option JobPostingRec) : Except String String :=
  match seeker with
  | none => .error "Seeker profile not found"
  | some s =>
    match job with
    | none => .error "Job posting not found"
    | some j => .ok (composeCoverLetter s j)

/-! ## Helper lemmas -/

theorem jsRound_nonneg {x : ℚ} (h : 0 ≤ x) : 0 ≤ jsRound x := by
  unfold jsRound
  exact Int.floor_nonneg.mpr (by linarith)

theorem jsRound_le_100 {x : ℚ} (h : x ≤ 100) : jsRound x ≤ 100 := by
  unfold jsRound
  rw [Int.floor_le_iff]
  push_cast
  linarith

theorem jsRound_mono {x y : ℚ} (h : x ≤ y) : jsRound x ≤ jsRound y :=
  Int.floor_le_floor (by linarith)

theorem jsRound_100 : jsRound 100 = 100 := by
  unfold jsRound
  rw [Int.floor_eq_iff]
  norm_num

theorem jsRound_0 : jsRound 0 = 0 := by
  unfold jsRound
  rw [Int.floor_eq_iff]
  norm_num

/-! ## Claim theorems: skill extraction -/

/-- Claim C7: for every text `T`, the extraction is a subset of the
vocabulary, equals the substring-matching set-builder over the
vocabulary, is idempotent under normalization (lower-casing), and the
empty text yields the empty set. -/
theorem extractSkills_algebra (T : String) :
    extractSkillsFromText T ⊆ commonSkills ∧
    extractSkillsFromText T =
      commonSkills.filter (fun v => strIncludes (toLowerCase T) (toLowerCase v)) ∧
    extractSkillsFromText T = extractSkillsFromText (toLowerCase T) ∧
    extractSkillsFromText "" = [] := by
  refine ⟨fun s hs => (List.mem_filter.mp hs).1, rfl, ?_, by decide⟩
  unfold extractSkillsFromText
  rw [toLowerCase_idem]

/-- Witness for C7 at a concrete input. -/
theorem extractSkills_algebra_witness :
    extractSkillsFromText "I know SQL" ⊆ commonSkills ∧
    extractSkillsFromText "I know SQL" = extractSkillsFromText (toLowerCase "I know SQL") :=
  ⟨(extractSkills_algebra "I know SQL").1, (extractSkills_algebra "I know SQL").2.2.1⟩

/-- Claim C8 fails on the code: the vocabulary entry "r" is a substring
of "Experienced", so the extraction for the scenario text also contains
"r", which is neither "kubernetes" nor "docker". -/
theorem extract_scenario_cex :
    "r" ∈ extractSkillsFromText "Experienced with Kubernetes and Docker" ∧
    "r" ≠ "kubernetes" ∧ "r" ≠ "docker" := by
  decide

/-- Claim C8 as amended: for the scenario text the extraction returns
exactly {"docker", "kubernetes", "r"} (listed in vocabulary order). -/
theorem extract_scenario_amended :
    extractSkillsFromText "Experienced with Kubernetes and Docker" =
      ["docker", "kubernetes", "r"] := by
  decide

/-- Claim C10: the CV_PARSE processor's returned result is a constant —
independent of the task payload (in particular of `cvUrl`) and of the
stored rows — namely the hard-coded sample résumé together with the
skills heuristically extracted from it. -/
theorem cvParsing_output_constant (d d' : CvParsingJobData) (rows rows' : List String) :
    (processCvParsing d rows).1 = (processCvParsing d' rows').1 ∧
    (processCvParsing d rows).1 =
      ⟨sampleCvText, extractSkillsFromText sampleCvText⟩ :=
  ⟨rfl, rfl⟩

/-! ## Algorithm A and B scoring lemmas -/

theorem matchingTags_length_le (skills tags : List String) :
    (matchingTags skills tags).length ≤ (jobTagsOf tags).length :=
  List.length_filter_le _ _

theorem matchScore_nonneg (skills tags : List String) : 0 ≤ matchScore skills tags := by
  unfold matchScore
  split
  · positivity
  · exact le_refl 0

theorem matchScore_le_100 (skills tags : List String) : matchScore skills tags ≤ 100 := by
  unfold matchScore
  split
  · rename_i h
    have hm : ((matchingTags skills tags).length : ℚ) ≤ ((jobTagsOf tags).length : ℚ) := by
      exact_mod_cast matchingTags_length_le skills tags
    have hn : (0 : ℚ) < ((jobTagsOf tags).length : ℚ) := by exact_mod_cast h
    have hdiv : ((matchingTags skills tags).length : ℚ) / ((jobTagsOf tags).length : ℚ) ≤ 1 :=
      (div_le_one hn).mpr hm
    nlinarith
  · norm_num

theorem matchScore_nil (skills : List String) : matchScore skills [] = 0 := by
  unfold matchScore jobTagsOf
  simp

theorem matchingTags_toFinset (skills tags : List String) :
    (matchingTags skills tags).toFinset =
      (jobTagsOf tags).toFinset ∩ (seekerSkillsOf skills).toFinset := by
  ext x
  simp [matchingTags, List.mem_filter]

/-- Claim C1: Algorithm A scoring.  The recommendation score is
`round(100 * |matching| / |jobTags|)` (stated below against set
cardinalities for duplicate-free normalized tags), is `0` for an empty
tag list, always lies in `[0, 100]`, is `100` whenever the seeker's
skills cover all job tags and there is at least one tag, and the
returned matching skills are exactly the intersection of the normalized
job tags with the lower-cased seeker skills. -/
theorem algorithmA_score_spec (skills tags : List String) :
    (tags = [] → jsRound (matchScore skills tags) = 0) ∧
    0 ≤ jsRound (matchScore skills tags) ∧
    jsRound (matchScore skills tags) ≤ 100 ∧
    ((∀ t ∈ jobTagsOf tags, t ∈ seekerSkillsOf skills) → tags ≠ [] →
      jsRound (matchScore skills tags) = 100) ∧
    (matchingTags skills tags).toFinset =
      (jobTagsOf tags).toFinset ∩ (seekerSkillsOf skills).toFinset ∧
    ((jobTagsOf tags).Nodup → tags ≠ [] →
      matchScore skills tags =
        100 * (((jobTagsOf tags).toFinset ∩ (seekerSkillsOf skills).toFinset).card : ℚ) /
          ((jobTagsOf tags).toFinset.card : ℚ)) ∧
    getJobRecommendations skills [tags] =
      [⟨0, jsRound (matchScore skills tags), matchingTags skills tags⟩] := by
  refine ⟨?_, jsRound_nonneg (matchScore_nonneg skills tags),
    jsRound_le_100 (matchScore_le_100 skills tags), ?_, matchingTags_toFinset skills tags,
    ?_, rfl⟩
  · rintro rfl
    rw [matchScore_nil]
    exact jsRound_0
  · intro hsub hne
    have hn : 0 < (jobTagsOf tags).length := by
      rw [jobTagsOf, List.length_map]
      exact List.length_pos.mpr hne
    have hmt : matchingTags skills tags = jobTagsOf tags := by
      unfold matchingTags
      exact List.filter_eq_self.mpr (fun t ht => by simpa using hsub t ht)
    rw [matchScore, if_pos hn, hmt, div_self (by exact_mod_cast hn.ne'), one_mul]
    exact jsRound_100
  · intro hnd hne
    have hn : 0 < (jobTagsOf tags).length := by
      rw [jobTagsOf, List.length_map]
      exact List.length_pos.mpr hne
    have hcard_tags : (jobTagsOf tags).toFinset.card = (jobTagsOf tags).length :=
      List.toFinset_card_of_nodup hnd
    have hnd_mt : (matchingTags skills tags).Nodup := hnd.filter _
    have hcard_mt : (matchingTags skills tags).toFinset.card = (matchingTags skills tags).length :=
      List.toFinset_card_of_nodup hnd_mt
    rw [matchScore, if_pos hn, ← matchingTags_toFinset skills tags, hcard_mt, hcard_tags]
    ring

/-- Claim C1 fails as stated when lower-casing collapses two distinct
tags: for tags {"React", "REACT"} and skills {"react"} the code scores
round(100 * 2/2) = 100, counting occurrences in the normalized tag
list, while the claimed set formula round(100 * |intersection| /
|J.tags|) = round(100 * 1 / 2) gives 50. -/
theorem algorithmA_score_cex :
    jsRound (matchScore ["react"] ["React", "REACT"]) = 100 ∧
    ((jobTagsOf ["React", "REACT"]).toFinset ∩ (seekerSkillsOf ["react"]).toFinset).card = 1 ∧
    (["React", "REACT"] : List String).length = 2 ∧
    jsRound (100 * (1 : ℚ) / 2) = 50 := by
  refine ⟨?_, by decide, by decide, by norm_num [jsRound]⟩
  have h1 : matchingTags ["react"] ["React", "REACT"] = ["react", "react"] := by decide
  have h2 : (jobTagsOf ["React", "REACT"]).length = 2 := by
    rw [jobTagsOf, List.length_map]
    rfl
  unfold matchScore
  rw [h1, h2, if_pos (by norm_num)]
  have h3 : ((["react", "react"] : List String).length : ℚ) = 2 := by norm_num
  rw [h3]
  norm_num [jsRound]

/-- Witness for C1: the spec's own scenarios.  Empty tags give score 0,
a full cover gives 100, and with duplicate-free tags the set formula
applies: skills {react, node, sql} against tags {react, aws} score 50. -/
theorem algorithmA_score_spec_witness :
    jsRound (matchScore ["python"] []) = 0 ∧
    jsRound (matchScore ["react", "aws"] ["react", "aws"]) = 100 ∧
    matchScore ["react", "node", "sql"] ["react", "aws"] =
      100 * (((jobTagsOf ["react", "aws"]).toFinset ∩
          (seekerSkillsOf ["react", "node", "sql"]).toFinset).card : ℚ) /
        ((jobTagsOf ["react", "aws"]).toFinset.card : ℚ) :=
  ⟨(algorithmA_score_spec ["python"] []).1 rfl,
   (algorithmA_score_spec ["react", "aws"] ["react", "aws"]).2.2.2.1 (by decide) (by decide),
   (algorithmA_score_spec ["react", "node", "sql"] ["react", "aws"]).2.2.2.2.2.1
     (by decide) (by decide)⟩

/-- Claim C2: Algorithm B.  `calculateJobMatch` equals
`round(100 * matched / max(1, |S|))` where `matched` counts the
lower-cased seeker skills occurring as substrings of the normalized
requirements-plus-description text, it is 0 on an empty skill list, and
it always lies in `[0, 100]` (the floored denominator is never 0). -/
theorem calculateJobMatch_spec (skills : List String) (requirements description : Option String) :
    calculateJobMatch skills requirements description =
      jsRound (100 * (((skills.map toLowerCase).filter
          (fun s => strIncludes (toLowerCase (requirements.getD "" ++ " " ++ description.getD "")) s)).length : ℚ) /
        ((max 1 skills.length : ℕ) : ℚ)) ∧
    (skills = [] → calculateJobMatch skills requirements description = 0) ∧
    0 ≤ calculateJobMatch skills requirements description ∧
    calculateJobMatch skills requirements description ≤ 100 := by
  have htot : (if (skills.map toLowerCase).length = 0 then 1 else (skills.map toLowerCase).length)
      = max 1 skills.length := by
    rw [List.length_map]
    split <;> omega
  have htotpos : (0 : ℚ) < ((max 1 skills.length : ℕ) : ℚ) := by
    have : 1 ≤ max 1 skills.length := le_max_left 1 skills.length
    exact_mod_cast Nat.lt_of_lt_of_le Nat.zero_lt_one this
  have hm : ((skills.map toLowerCase).filter
        (fun s => strIncludes (toLowerCase (requirements.getD "" ++ " " ++ description.getD "")) s)).length
      ≤ max 1 skills.length := by
    have h1 := List.length_filter_le
      (fun s => strIncludes (toLowerCase (requirements.getD "" ++ " " ++ description.getD "")) s)
      (skills.map toLowerCase)
    rw [List.length_map] at h1
    omega
  refine ⟨?_, ?_, ?_, ?_⟩
  · simp only [calculateJobMatch]
    rw [htot]
    congr 1
    ring
  · rintro rfl
    unfold calculateJobMatch
    simpa using jsRound_0
  · unfold calculateJobMatch
    apply jsRound_nonneg
    positivity
  · simp only [calculateJobMatch]
    rw [htot]
    apply jsRound_le_100
    rw [div_mul_eq_mul_div, div_le_iff htotpos]
    have : (((skills.map toLowerCase).filter
        (fun s => strIncludes (toLowerCase (requirements.getD "" ++ " " ++ description.getD "")) s)).length : ℚ)
        ≤ ((max 1 skills.length : ℕ) : ℚ) := by exact_mod_cast hm
    nlinarith

/-- Witness for C2: an empty skill list scores 0 without any division
error. -/
theorem calculateJobMatch_spec_witness :
    calculateJobMatch [] (some "We need React experience") none = 0 :=
  (calculateJobMatch_spec [] (some "We need React experience") none).2.1 rfl

/-! ## Skill insertion lemmas -/

theorem insertSkills_cons (rows : List String) (s : String) (rest : List String) :
    insertSkills rows (s :: rest) =
      insertSkills (if s ∈ rows then rows else rows ++ [s]) rest :=
  rfl

theorem mem_insertSkills_left (rows skills : List String) (a : String) (h : a ∈ rows) :
    a ∈ insertSkills rows skills := by
  induction skills generalizing rows with
  | nil => exact h
  | cons s rest ih =>
    rw [insertSkills_cons]
    apply ih
    split
    · exact h
    · exact List.mem_append_left _ h

theorem mem_insertSkills_arg (rows skills : List String) (a : String) (h : a ∈ skills) :
    a ∈ insertSkills rows skills := by
  induction skills generalizing rows with
  | nil => cases h
  | cons s rest ih =>
    rw [insertSkills_cons]
    rcases List.mem_cons.mp h with rfl | h'
    · apply mem_insertSkills_left
      split
      · assumption
      · exact List.mem_append_right _ (List.mem_singleton_self a)
    · exact ih _ h'

theorem insertSkills_of_subset (rows skills : List String) (h : ∀ s ∈ skills, s ∈ rows) :
    insertSkills rows skills = rows := by
  induction skills with
  | nil => rfl
  | cons s rest ih =>
    rw [insertSkills_cons, if_pos (h s (List.mem_cons_self s rest))]
    exact ih (fun x hx => h x (List.mem_cons_of_mem _ hx))

theorem insertSkills_idem (rows skills : List String) :
    insertSkills (insertSkills rows skills) skills = insertSkills rows skills :=
  insertSkills_of_subset _ _ (fun s hs => mem_insertSkills_arg _ _ _ hs)

theorem insertSkills_nodup (rows skills : List String) (h : rows.Nodup) :
    (insertSkills rows skills).Nodup := by
  induction skills generalizing rows with
  | nil => exact h
  | cons s rest ih =>
    rw [insertSkills_cons]
    apply ih
    split
    · exact h
    · rename_i hns
      simp [List.nodup_append, h, hns]

theorem processCvParsing_snd (data : CvParsingJobData) (rows : List String) :
    (processCvParsing data rows).2 = insertSkills rows (extractSkillsFromText sampleCvText) := by
  simp only [processCvParsing]

/-- Claim C3: re-running the CV_PARSE skill insertion with the same
extracted skill set changes nothing — the stored rows after two runs
equal the rows after one run — and upsert-style insertion keeps the
rows duplicate-free. -/
theorem cvParse_insertion_idempotent (data data' : CvParsingJobData)
    (rows skills : List String) (h : rows.Nodup) :
    (processCvParsing data ((processCvParsing data' rows).2)).2 =
      (processCvParsing data' rows).2 ∧
    insertSkills (insertSkills rows skills) skills = insertSkills rows skills ∧
    ((processCvParsing data' rows).2).Nodup := by
  simp only [processCvParsing_snd]
  exact ⟨insertSkills_idem _ _, insertSkills_idem _ _, insertSkills_nodup _ _ h⟩

/-- Witness for C3 at concrete duplicate-free rows. -/
theorem cvParse_insertion_idempotent_witness :
    (processCvParsing ⟨"seeker1", "http://cv", "job1"⟩
        ((processCvParsing ⟨"seeker1", "http://cv", "job1"⟩ ["sql"]).2)).2 =
      (processCvParsing ⟨"seeker1", "http://cv", "job1"⟩ ["sql"]).2 ∧
    insertSkills (insertSkills ["sql"] ["react"]) ["react"] = insertSkills ["sql"] ["react"] :=
  ⟨(cvParse_insertion_idempotent ⟨"seeker1", "http://cv", "job1"⟩
      ⟨"seeker1", "http://cv", "job1"⟩ ["sql"] ["react"] (by decide)).1,
   (cvParse_insertion_idempotent ⟨"seeker1", "http://cv", "job1"⟩
      ⟨"seeker1", "http://cv", "job1"⟩ ["sql"] ["react"] (by decide)).2.1⟩

/-! ## Ranking lemmas (stable sort) -/

/-- Intended order of the ranked output: strictly greater unrounded
score first, and among equal unrounded scores the smaller insertion
index first. -/
def rankRel (a b : MatchedJob) : Prop :=
  b.score < a.score ∨ (a.score = b.score ∧ a.idx < b.idx)

theorem mem_insDesc {x y : MatchedJob} : ∀ {l : List MatchedJob},
    y ∈ insDesc x l ↔ y = x ∨ y ∈ l
  | [] => by simp [insDesc]
  | z :: zs => by
    unfold insDesc
    split
    · simp
    · rw [List.mem_cons, List.mem_cons, mem_insDesc]
      tauto

theorem insDesc_perm (x : MatchedJob) (l : List MatchedJob) :
    (insDesc x l).Perm (x :: l) := by
  induction l with
  | nil => exact List.Perm.refl _
  | cons y ys ih =>
    unfold insDesc
    split
    · exact List.Perm.refl _
    · exact (List.Perm.cons y ih).trans (List.Perm.swap x y ys)

theorem sortDesc_perm (l : List MatchedJob) : (sortDesc l).Perm l := by
  induction l with
  | nil => exact List.Perm.refl _
  | cons x xs ih => exact (insDesc_perm x (sortDesc xs)).trans (List.Perm.cons x ih)

theorem pairwise_insDesc {x : MatchedJob} {l : List MatchedJob}
    (hl : l.Pairwise rankRel) (hx : ∀ y ∈ l, x.idx < y.idx) :
    (insDesc x l).Pairwise rankRel := by
  induction l with
  | nil => simp [insDesc, rankRel]
  | cons y ys ih =>
    rw [List.pairwise_cons] at hl
    obtain ⟨hy, hys⟩ := hl
    unfold insDesc
    split
    · rename_i hle
      rw [List.pairwise_cons]
      refine ⟨?_, List.pairwise_cons.mpr ⟨hy, hys⟩⟩
      intro z hz
      rcases List.mem_cons.mp hz with rfl | hz'
      · rcases lt_or_eq_of_le hle with h | h
        · exact Or.inl h
        · exact Or.inr ⟨h.symm, hx z (List.mem_cons_self z ys)⟩
      · rcases hy z hz' with h | ⟨heq, _⟩
        · rcases lt_or_eq_of_le hle with h2 | h2
          · exact Or.inl (lt_trans h h2)
          · exact Or.inl (h2 ▸ h)
        · rcases lt_or_eq_of_le hle with h2 | h2
          · exact Or.inl (heq ▸ h2)
          · exact Or.inr ⟨h2.symm.trans heq, hx z (List.mem_cons_of_mem _ hz')⟩
    · rename_i hgt
      rw [List.pairwise_cons]
      constructor
      · intro z hz
        rcases mem_insDesc.mp hz with rfl | hz'
        · exact Or.inl (not_le.mp hgt)
        · exact hy z hz'
      · exact ih hys (fun z hz => hx z (List.mem_cons_of_mem _ hz))

theorem sortDesc_pairwise : ∀ {l : List MatchedJob},
    l.Pairwise (fun a b => a.idx < b.idx) → (sortDesc l).Pairwise rankRel
  | [], _ => List.Pairwise.nil
  | x :: xs, h => by
    rw [List.pairwise_cons] at h
    obtain ⟨hx, hxs⟩ := h
    show (insDesc x (sortDesc xs)).Pairwise rankRel
    exact pairwise_insDesc (sortDesc_pairwise hxs)
      (fun y hy => hx y ((sortDesc_perm xs).mem_iff.mp hy))

theorem scoredJobs_pairwise_idx (skills : List String) (jobs : List (List String)) :
    (scoredJobs skills jobs).Pairwise (fun a b => a.idx < b.idx) := by
  unfold scoredJobs
  rw [List.pairwise_map]
  have h1 : (jobs.enum.map Prod.fst).Pairwise (· < ·) := by
    rw [List.enum_map_fst]
    exact List.pairwise_lt_range _
  rw [List.pairwise_map] at h1
  exact h1

/-- Claim C6 as amended: the recommendation list is a permutation of
the scored input sorted by the UNROUNDED Algorithm A ratio in
descending order, with ties in the unrounded ratio kept in
insertion/creation order; consequently the rounded scores shown in the
recommendations are non-increasing, but two jobs with equal ROUNDED
score need not appear in insertion order (see the counterexample). -/
theorem recommendation_ranking (skills : List String) (jobs : List (List String)) :
    (findMatchingJobs skills jobs).Perm (scoredJobs skills jobs) ∧
    (findMatchingJobs skills jobs).Pairwise rankRel ∧
    (getJobRecommendations skills jobs).Pairwise (fun a b => b.matchScore ≤ a.matchScore) := by
  refine ⟨sortDesc_perm _, sortDesc_pairwise (scoredJobs_pairwise_idx skills jobs), ?_⟩
  unfold getJobRecommendations
  rw [List.pairwise_map]
  refine List.Pairwise.imp ?_ (sortDesc_pairwise (scoredJobs_pairwise_idx skills jobs))
  intro a b hab
  rcases hab with h | ⟨h, _⟩
  · exact jsRound_mono (le_of_lt h)
  · exact jsRound_mono (le_of_eq h.symm)

/-- Claim C6 fails as stated: sorting happens on the unrounded ratio
before rounding.  With one seeker skill "t", job 0 carrying 13 tags
(ratio 100/13 ≈ 7.7) and job 1 carrying 12 tags (ratio 100/12 ≈ 8.3),
both round to a score of 8, yet the output lists job 1 before job 0 —
two equal-score recommendations in the reverse of insertion order. -/
theorem recommendation_ranking_cex :
    ((getJobRecommendations ["t"]
        [["t", "b1", "b2", "b3", "b4", "b5", "b6", "b7", "b8", "b9", "b10", "b11", "b12"],
         ["t", "a1", "a2", "a3", "a4", "a5", "a6", "a7", "a8", "a9", "a10", "a11"]]).map
      (fun r => r.matchScore)) = [8, 8] ∧
    ((getJobRecommendations ["t"]
        [["t", "b1", "b2", "b3", "b4", "b5", "b6", "b7", "b8", "b9", "b10", "b11", "b12"],
         ["t", "a1", "a2", "a3", "a4", "a5", "a6", "a7", "a8", "a9", "a10", "a11"]]).map
      (fun r => r.idx)) = [1, 0] := by
  have hmtB : matchingTags ["t"]
      ["t", "b1", "b2", "b3", "b4", "b5", "b6", "b7", "b8", "b9", "b10", "b11", "b12"] = ["t"] := by
    decide
  have hmtA : matchingTags ["t"]
      ["t", "a1", "a2", "a3", "a4", "a5", "a6", "a7", "a8", "a9", "a10", "a11"] = ["t"] := by
    decide
  have hlb : (jobTagsOf
      ["t", "b1", "b2", "b3", "b4", "b5", "b6", "b7", "b8", "b9", "b10", "b11", "b12"]).length = 13 := by
    rw [jobTagsOf, List.length_map]
    rfl
  have hla : (jobTagsOf
      ["t", "a1", "a2", "a3", "a4", "a5", "a6", "a7", "a8", "a9", "a10", "a11"]).length = 12 := by
    rw [jobTagsOf, List.length_map]
    rfl
  have hb : matchScore ["t"]
      ["t", "b1", "b2", "b3", "b4", "b5", "b6", "b7", "b8", "b9", "b10", "b11", "b12"] = 100 / 13 := by
    unfold matchScore
    rw [hlb, hmtB, if_pos (by norm_num)]
    norm_num
  have ha : matchScore ["t"]
      ["t", "a1", "a2", "a3", "a4", "a5", "a6", "a7", "a8", "a9", "a10", "a11"] = 100 / 12 := by
    unfold matchScore
    rw [hla, hmtA, if_pos (by norm_num)]
    norm_num
  have hscored : scoredJobs ["t"]
      [["t", "b1", "b2", "b3", "b4", "b5", "b6", "b7", "b8", "b9", "b10", "b11", "b12"],
       ["t", "a1", "a2", "a3", "a4", "a5", "a6", "a7", "a8", "a9", "a10", "a11"]] =
      [⟨0, 100 / 13, ["t"]⟩, ⟨1, 100 / 12, ["t"]⟩] := by
    unfold scoredJobs
    simp only [List.enum, List.enumFrom, List.map]
    rw [hb, ha, hmtB, hmtA]
  have hsort : findMatchingJobs ["t"]
      [["t", "b1", "b2", "b3", "b4", "b5", "b6", "b7", "b8", "b9", "b10", "b11", "b12"],
       ["t", "a1", "a2", "a3", "a4", "a5", "a6", "a7", "a8", "a9", "a10", "a11"]] =
      [⟨1, 100 / 12, ["t"]⟩, ⟨0, 100 / 13, ["t"]⟩] := by
    rw [findMatchingJobs, hscored]
    simp only [sortDesc, insDesc]
    rw [if_neg (by norm_num)]
  unfold getJobRecommendations
  rw [hsort]
  refine ⟨?_, rfl⟩
  show [jsRound (100 / 12), jsRound (100 / 13)] = [8, 8]
  norm_num [jsRound]

/-! ## Worker pool failure path -/

/-- Claim C4: a processor exception makes the `failed` handler record
status FAILED with `{ error: message }`, the failure is invisible to
the enqueue-time caller (enqueue already returned the task id, and
processing any outcomes later never changes that value or throws), and
COMPLETED/FAILED are terminal — a later delivery leaves the task
untouched. -/
theorem worker_failure_path (t : Task) (m : String) (o : ProcOutcome)
    (st : QueueState) (outcomeOf : Nat → ProcOutcome) :
    (t.status = .PENDING →
      (stepTask t (.err m)).status = .FAILED ∧
      (stepTask t (.err m)).result = .failure m) ∧
    (t.status = .COMPLETED ∨ t.status = .FAILED → stepTask t o = t) ∧
    (enqueueThenProcess st outcomeOf).1 = st.nextId := by
  refine ⟨?_, ?_, rfl⟩
  · intro h
    simp [stepTask, h, finishTask, failedHandler]
  · rintro (h | h) <;> simp [stepTask, h]

/-- Witness for C4 at a concrete task, outcome and queue. -/
theorem worker_failure_path_witness :
    (stepTask ⟨0, .PENDING, .empty⟩ (.err "boom")).status = .FAILED ∧
    (stepTask ⟨0, .PENDING, .empty⟩ (.err "boom")).result = .failure "boom" ∧
    stepTask ⟨1, .FAILED, .failure "x"⟩ (.ok "y") = ⟨1, .FAILED, .failure "x"⟩ ∧
    (enqueueThenProcess ⟨[], 5⟩ (fun _ => .err "boom")).1 = 5 :=
  ⟨((worker_failure_path ⟨0, .PENDING, .empty⟩ "boom" (.ok "y") ⟨[], 5⟩
      (fun _ => .err "boom")).1 rfl).1,
   ((worker_failure_path ⟨0, .PENDING, .empty⟩ "boom" (.ok "y") ⟨[], 5⟩
      (fun _ => .err "boom")).1 rfl).2,
   (worker_failure_path ⟨1, .FAILED, .failure "x"⟩ "boom" (.ok "y") ⟨[], 5⟩
      (fun _ => .err "boom")).2.1 (Or.inr rfl),
   (worker_failure_path ⟨1, .FAILED, .failure "x"⟩ "boom" (.ok "y") ⟨[], 5⟩
      (fun _ => .err "boom")).2.2⟩

/-- Claim C5: every failure shape of the optional external CV-analysis
call — network error, malformed JSON body, or a response with missing
fields — makes the analysis fall back to local heuristic extraction,
the route still answers successfully, and the CV_PARSE task (whose
processor performs no external call at all) finishes COMPLETED. -/
theorem cvAnalysis_fallback (seeker : SeekerRow) (url : String)
    (hurl : seeker.cvUrl = some url) (es sk : Option (List String)) (pt : String)
    (hpt : pt ≠ "") (configured : Bool) (ai : AiCallOutcome)
    (data : CvParsingJobData) (rows : List String) (t : Task)
    (ht : t.status = .PENDING) :
    analyzeCv true .netError = (fallbackMessage, extractSkillsFromText fallbackMessage) ∧
    analyzeCv true .malformedJson = (fallbackMessage, extractSkillsFromText fallbackMessage) ∧
    analyzeCv true (.payload none es sk) =
      (fallbackMessage, extractSkillsFromText fallbackMessage) ∧
    analyzeCv true (.payload (some pt) none none) = (pt, extractSkillsFromText pt) ∧
    analyzeCvRoute (some seeker) configured ai = .ok (analyzeCv configured ai) ∧
    (stepTask t (cvParseOutcome data rows)).status = .COMPLETED := by
  refine ⟨by simp [analyzeCv, aiRaw], by simp [analyzeCv, aiRaw], ?_, ?_, ?_, ?_⟩
  · cases es <;> simp [analyzeCv, aiRaw]
  · simp [analyzeCv, aiRaw, hpt]
  · simp [analyzeCvRoute, hurl]
  · simp [stepTask, ht, cvParseOutcome, finishTask, completedHandler]

/-- Witness for C5 at a concrete seeker, payload and task. -/
theorem cvAnalysis_fallback_witness :
    analyzeCv true .netError = (fallbackMessage, extractSkillsFromText fallbackMessage) ∧
    analyzeCvRoute (some ⟨some "http://cv"⟩) true .netError =
      .ok (analyzeCv true .netError) ∧
    (stepTask ⟨0, .PENDING, .empty⟩ (cvParseOutcome ⟨"s1", "http://cv", "j1"⟩ [])).status =
      .COMPLETED :=
  ⟨(cvAnalysis_fallback ⟨some "http://cv"⟩ "http://cv" rfl none none "x" (by decide)
      true .netError ⟨"s1", "http://cv", "j1"⟩ [] ⟨0, .PENDING, .empty⟩ rfl).1,
   (cvAnalysis_fallback ⟨some "http://cv"⟩ "http://cv" rfl none none "x" (by decide)
      true .netError ⟨"s1", "http://cv", "j1"⟩ [] ⟨0, .PENDING, .empty⟩ rfl).2.2.2.2.1,
   (cvAnalysis_fallback ⟨some "http://cv"⟩ "http://cv" rfl none none "x" (by decide)
      true .netError ⟨"s1", "http://cv", "j1"⟩ [] ⟨0, .PENDING, .empty⟩ rfl).2.2.2.2.2⟩

/-! ## Substring lemmas for the cover letter -/

theorem hasSub_of_isPrefixOf {p l : List Char} (h : p.isPrefixOf l = true) :
    hasSub p l = true := by
  cases l with
  | nil => exact h
  | cons c t => simp [hasSub, h]

theorem hasSub_appendRight {p l : List Char} (x : List Char) (h : hasSub p l = true) :
    hasSub p (l ++ x) = true := by
  induction l with
  | nil =>
    have hp : p = [] := by
      cases p with
      | nil => rfl
      | cons a b => simp [hasSub, List.isPrefixOf] at h
    subst hp
    cases x with
    | nil => exact h
    | cons c t => simp [hasSub, List.isPrefixOf]
  | cons c t ih =>
    rw [List.cons_append]
    unfold hasSub at h ⊢
    rcases Bool.or_eq_true_iff.mp h with h1 | h2
    · have hpre : p <+: (c :: t) := List.isPrefixOf_iff_prefix.mp h1
      have : p.isPrefixOf (c :: t ++ x) = true :=
        List.isPrefixOf_iff_prefix.mpr (hpre.trans (List.prefix_append (c :: t) x))
      rw [List.cons_append] at this
      simp [this]
    · simp [ih h2]

theorem hasSub_appendLeft {p l : List Char} (x : List Char) (h : hasSub p l = true) :
    hasSub p (x ++ l) = true := by
  induction x with
  | nil => exact h
  | cons c t ih =>
    rw [List.cons_append]
    unfold hasSub
    rw [ih]
    simp

theorem hasSub_self (p : List Char) : hasSub p p = true :=
  hasSub_of_isPrefixOf (List.isPrefixOf_iff_prefix.mpr (List.prefix_refl p))

theorem strIncludes_suffix (x p : String) : strIncludes (x ++ p) p = true := by
  unfold strIncludes
  rw [String.data_append]
  exact hasSub_appendLeft x.data (hasSub_self p.data)

theorem strIncludes_appendRight {a : String} (b p : String)
    (h : strIncludes a p = true) : strIncludes (a ++ b) p = true := by
  unfold strIncludes at h ⊢
  rw [String.data_append]
  exact hasSub_appendRight b.data h

/-- Claim C9: when the referenced seeker profile and job posting exist,
cover-letter generation returns the filled template, which is never
empty, contains the job title and the seeker's full name verbatim, and
substitutes the placeholder "Company" when the employer's company name
is missing. -/
theorem coverLetter_compose (s : SeekerProfileRec) (j : JobPostingRec)
    (seekerOpt : Option SeekerProfileRec) (jobOpt : Option JobPostingRec)
    (hs : seekerOpt = some s) (hj : jobOpt = some j) :
    processCoverLetterGeneration seekerOpt jobOpt = .ok (composeCoverLetter s j) ∧
    composeCoverLetter s j ≠ "" ∧
    strIncludes (composeCoverLetter s j) j.title = true ∧
    strIncludes (composeCoverLetter s j) (s.firstName ++ " " ++ s.lastName) = true ∧
    (j.companyName = none → strIncludes (composeCoverLetter s j) "Company" = true) := by
  subst hs hj
  refine ⟨rfl, ?_, ?_, ?_, ?_⟩
  · intro h
    have hl := congrArg String.length h
    simp only [composeCoverLetter, String.length_append] at hl
    have h5 : ("\n    " : String).length = 5 := rfl
    have h0 : ("" : String).length = 0 := rfl
    omega
  · simp only [composeCoverLetter]
    iterate 14 apply strIncludes_appendRight
    exact strIncludes_suffix _ _
  · simp only [composeCoverLetter]
    iterate 1 apply strIncludes_appendRight
    exact strIncludes_suffix _ _
  · intro hc
    simp only [composeCoverLetter, hc, orCompany]
    iterate 3 apply strIncludes_appendRight
    exact strIncludes_suffix _ _

/-- Witness for C9 at concrete records with a missing company name. -/
theorem coverLetter_compose_witness :
    processCoverLetterGeneration (some ⟨"Ada", "Lovelace", "ada@example.com", ["react"]⟩)
        (some ⟨"Engineer", "Build things", none⟩) =
      .ok (composeCoverLetter ⟨"Ada", "Lovelace", "ada@example.com", ["react"]⟩
        ⟨"Engineer", "Build things", none⟩) ∧
    composeCoverLetter ⟨"Ada", "Lovelace", "ada@example.com", ["react"]⟩
        ⟨"Engineer", "Build things", none⟩ ≠ "" ∧
    strIncludes (composeCoverLetter ⟨"Ada", "Lovelace", "ada@example.com", ["react"]⟩
        ⟨"Engineer", "Build things", none⟩) "Engineer" = true ∧
    strIncludes (composeCoverLetter ⟨"Ada", "Lovelace", "ada@example.com", ["react"]⟩
        ⟨"Engineer", "Build things", none⟩) "Company" = true :=
  ⟨(coverLetter_compose ⟨"Ada", "Lovelace", "ada@example.com", ["react"]⟩
      ⟨"Engineer", "Build things", none⟩ _ _ rfl rfl).1,
   (coverLetter_compose ⟨"Ada", "Lovelace", "ada@example.com", ["react"]⟩
      ⟨"Engineer", "Build things", none⟩ _ _ rfl rfl).2.1,
   (coverLetter_compose ⟨"Ada", "Lovelace", "ada@example.com", ["react"]⟩
      ⟨"Engineer", "Build things", none⟩ _ _ rfl rfl).2.2.1,
   (coverLetter_compose ⟨"Ada", "Lovelace", "ada@example.com", ["react"]⟩
      ⟨"Engineer", "Build things", none⟩ _ _ rfl rfl).2.2.2.2 rfl⟩

end CollabBoard
